import Mathlib

/-!
Verification of the choices e2e-audit reporting layer and the RLS smoke
check, as a shallow embedding of the Python sources
(src/choices_e2e_audit/report.py and src/scripts/rls_smoke.py).

JSON values are modelled only as deeply as the code inspects them:
optional string fields become Option String, absent collections become
empty lists, and durations are modelled as exact natural numbers of
milliseconds (the code reads integer millisecond durations from the
runner's JSON report).
-/

namespace Report

/-- Helper for splitWs: walk the characters, collecting the current word
(in reverse); whitespace ends the current word, empty words are dropped. -/
def splitWsAux : List Char → List Char → List String
  | [], cur => if cur.isEmpty then [] else [⟨cur.reverse⟩]
  | c :: cs, cur =>
    if c.isWhitespace then
      (if cur.isEmpty then [] else [⟨cur.reverse⟩]) ++ splitWsAux cs []
    else
      splitWsAux cs (c :: cur)

/-- Python str.split() with no argument: split on runs of whitespace,
dropping empty pieces. -/
def splitWs (s : String) : List String :=
  splitWsAux s.toList []

/-- Python " ".join(xs). -/
def joinSp (xs : List String) : String := String.intercalate " " xs

/-- One attachment record of a Playwright result: r["attachments"][i].
Both fields are optional (dict .get semantics). -/
structure Attachment where
  name : Option String
  body : Option String
deriving Repr, DecidableEq

/-- One result node: status (r.get("status")), duration
(r.get("duration", 0)) and attachments (r.get("attachments", [])). -/
structure TestResult where
  status : Option String
  duration : Nat
  attachments : List Attachment
deriving Repr, DecidableEq

/-- One test node: t.get("results", []). -/
structure Test where
  results : List TestResult
deriving Repr, DecidableEq

/-- One spec node: title (spec.get("title", "") when absent), optional
titlePath (spec.get("titlePath", ...)), tests (spec.get("tests", [])). -/
structure Spec where
  title : Option String
  titlePath : Option (List String)
  tests : List Test
deriving Repr, DecidableEq

/-- A suite node: specs plus nested suites (s.get("specs", []),
s.get("suites", [])). -/
inductive Suite where
  | mk (specs : List Spec) (suites : List Suite)

def Suite.specs : Suite → List Spec
  | .mk sp _ => sp

def Suite.subsuites : Suite → List Suite
  | .mk _ su => su

/-- Entry of the summary's "specs" list. -/
structure SpecRec where
  title : String
  duration_ms : Nat
  status : String
deriving Repr, DecidableEq

/-- Entry of the summary's "failures" list. -/
structure FailRec where
  title : String
  duration_ms : Nat
  error : Option String
deriving Repr, DecidableEq

/-- The summary dict returned by summarize_playwright_json. -/
structure Summary where
  total : Nat
  passed : Nat
  failed : Nat
  skipped : Nat
  specs : List SpecRec
  failures : List FailRec
deriving Repr, DecidableEq

/-- spec.get("title", ""). -/
def rawTitle (sp : Spec) : String := sp.title.getD ""

/-- Line 20 of report.py:
spec_title is the space-join of spec.get("titlePath", spec.get("title", "").split()). -/
def specTitleJoined (sp : Spec) : String :=
  joinSp (sp.titlePath.getD (splitWs (rawTitle sp)))

/-- The title stored in specs/failures records:
spec_title or spec.get("title", "") (Python or: empty string is falsy). -/
def recordTitle (sp : Spec) : String :=
  if specTitleJoined sp = "" then rawTitle sp else specTitleJoined sp

/-- Python truthiness of a.get("body") for a string-or-absent field. -/
def truthy : Option String → Bool
  | some s => s ≠ ""
  | none => false

/-- The attachment scan of the failed branch: first attachment with
a.get("name") == "error" and truthy a.get("body") yields its body. -/
def findErr : List Attachment → Option String
  | [] => none
  | a :: rest =>
    if a.name = some "error" ∧ truthy a.body then a.body else findErr rest

/-- status in ("skipped", "timedOut", "interrupted"). -/
def isSkipLike (s : String) : Bool :=
  s = "skipped" || s = "timedOut" || s = "interrupted"

/-- "status": status or "unknown" (Python or: None and "" are falsy). -/
def statusField : Option String → String
  | some s => if s = "" then "unknown" else s
  | none => "unknown"

/-- The body of the innermost loop of walk_suites, processing one
result r under a spec whose resolved record title is given. -/
def procResult (title : String) (acc : Summary) (r : TestResult) : Summary :=
  let acc1 : Summary := { acc with total := acc.total + 1 }
  let acc2 : Summary :=
    if r.status = some "passed" then
      { acc1 with passed := acc1.passed + 1 }
    else if r.status = some "failed" then
      { acc1 with
        failed := acc1.failed + 1,
        failures := acc1.failures ++
          [⟨title, r.duration, findErr r.attachments⟩] }
    else if (match r.status with | some s => isSkipLike s | none => false) then
      { acc1 with skipped := acc1.skipped + 1 }
    else acc1
  { acc2 with specs := acc2.specs ++ [⟨title, r.duration, statusField r.status⟩] }

/-- for r in t.get("results", []). -/
def procTest (title : String) (acc : Summary) (t : Test) : Summary :=
  t.results.foldl (procResult title) acc

/-- for t in spec.get("tests", []), with the spec's title resolved once. -/
def procSpec (acc : Summary) (sp : Spec) : Summary :=
  sp.tests.foldl (procTest (recordTitle sp)) acc

/-- walk_suites: for each suite, process its specs, then recurse into
its nested suites, then continue with the remaining sibling suites. -/
def walkSuites (acc : Summary) : List Suite → Summary
  | [] => acc
  | .mk specs subs :: rest =>
    walkSuites (walkSuites (specs.foldl procSpec acc) subs) rest

def emptySummary : Summary := ⟨0, 0, 0, 0, [], []⟩

/-- summarize_playwright_json after JSON parsing: the tree's top-level
suites list (data.get("suites", [])) to the summary dict. -/
def summarize (root : List Suite) : Summary :=
  walkSuites emptySummary root

/-- The flat list of (resolved record title, result) pairs contributed by
one spec, in traversal order. -/
def specResults (sp : Spec) : List (String × TestResult) :=
  ((sp.tests.map Test.results).flatten).map (fun r => (recordTitle sp, r))

/-- The flat list of (resolved record title, result) pairs of a suite
forest, in walk_suites traversal order. -/
def allResults : List Suite → List (String × TestResult)
  | [] => []
  | .mk specs subs :: rest =>
    ((specs.map specResults).flatten) ++ allResults subs ++ allResults rest

/-- The number of Result nodes in a suite forest. -/
def countResults : List Suite → Nat
  | [] => 0
  | .mk specs subs :: rest =>
    ((specs.map (fun sp => ((sp.tests.map Test.results).flatten).length)).sum)
      + countResults subs + countResults rest

/-- One fold step over the flat result list. -/
def step (acc : Summary) (p : String × TestResult) : Summary :=
  procResult p.1 acc p.2

theorem procTest_eq_foldl (title : String) (acc : Summary) (t : Test) :
    procTest title acc t
      = (t.results.map (fun r => (title, r))).foldl step acc := by
  simp [procTest, step, List.foldl_map]

theorem procSpec_eq_foldl (acc : Summary) (sp : Spec) :
    procSpec acc sp = (specResults sp).foldl step acc := by
  simp only [procSpec, specResults, List.foldl_flatten, List.foldl_map]
  induction sp.tests generalizing acc with
  | nil => rfl
  | cons t ts ih =>
    simp only [List.foldl_cons, List.map_cons]
    rw [ih, procTest_eq_foldl]
    simp [List.foldl_map]

theorem foldl_procSpec_eq (specs : List Spec) (acc : Summary) :
    specs.foldl procSpec acc
      = ((specs.map specResults).flatten).foldl step acc := by
  rw [List.foldl_flatten, List.foldl_map]
  induction specs generalizing acc with
  | nil => rfl
  | cons sp sps ih =>
    simp only [List.foldl_cons]
    rw [ih, procSpec_eq_foldl]

/-- walk_suites is the fold of the per-result step over the flat list of
results in traversal order. -/
theorem walkSuites_eq_foldl : ∀ (ss : List Suite) (acc : Summary),
    walkSuites acc ss = (allResults ss).foldl step acc
  | [], acc => by rw [walkSuites, allResults, List.foldl_nil]
  | .mk specs subs :: rest, acc => by
    rw [walkSuites, allResults, List.foldl_append, List.foldl_append,
      walkSuites_eq_foldl rest, walkSuites_eq_foldl subs,
      foldl_procSpec_eq]
termination_by ss => sizeOf ss

/-- The statuses that fall into one of the passed/failed/skipped buckets. -/
def statusKnown : Option String → Bool
  | some s => s = "passed" || s = "failed" || isSkipLike s
  | none => false

theorem countResults_eq_length : ∀ ss : List Suite,
    countResults ss = (allResults ss).length
  | [] => by rw [countResults, allResults]; rfl
  | .mk specs subs :: rest => by
    rw [countResults, allResults,
      countResults_eq_length subs, countResults_eq_length rest]
    simp only [List.length_append, List.length_flatten, List.map_map]
    simp [specResults, Function.comp_def]
termination_by ss => sizeOf ss

theorem procResult_total (t : String) (acc : Summary) (r : TestResult) :
    (procResult t acc r).total = acc.total + 1 := by
  simp only [procResult]
  split <;> (try split) <;> (try split) <;> rfl

theorem procResult_passed (t : String) (acc : Summary) (r : TestResult) :
    (procResult t acc r).passed
      = acc.passed + (if r.status = some "passed" then 1 else 0) := by
  simp only [procResult]
  split <;> (try split) <;> (try split) <;> simp_all

theorem procResult_failed (t : String) (acc : Summary) (r : TestResult) :
    (procResult t acc r).failed
      = acc.failed + (if r.status = some "failed" then 1 else 0) := by
  simp only [procResult]
  split <;> (try split) <;> (try split) <;> simp_all

theorem procResult_skipped (t : String) (acc : Summary) (r : TestResult) :
    (procResult t acc r).skipped
      = acc.skipped +
        (if (match r.status with
             | some s => isSkipLike s
             | none => false) = true then 1 else 0) := by
  simp only [procResult]
  split <;> (try split) <;> (try split) <;> simp_all [isSkipLike]

theorem procResult_specs (t : String) (acc : Summary) (r : TestResult) :
    (procResult t acc r).specs
      = acc.specs ++ [⟨t, r.duration, statusField r.status⟩] := by
  simp only [procResult]
  split <;> (try split) <;> (try split) <;> rfl

theorem procResult_failures (t : String) (acc : Summary) (r : TestResult) :
    (procResult t acc r).failures
      = acc.failures ++
        (if r.status = some "failed" then
          [⟨t, r.duration, findErr r.attachments⟩] else []) := by
  simp only [procResult]
  split <;> (try split) <;> (try split) <;> simp_all

theorem foldl_step_total (l : List (String × TestResult)) (acc : Summary) :
    (l.foldl step acc).total = acc.total + l.length := by
  induction l generalizing acc with
  | nil => rfl
  | cons p ps ih =>
    simp only [List.foldl_cons, ih, step, procResult_total, List.length_cons]
    omega

theorem foldl_step_passed (l : List (String × TestResult)) (acc : Summary) :
    (l.foldl step acc).passed
      = acc.passed + l.countP (fun p => p.2.status = some "passed") := by
  induction l generalizing acc with
  | nil => simp
  | cons p ps ih =>
    simp only [List.foldl_cons, ih, step, procResult_passed, List.countP_cons]
    split <;> simp_all <;> omega

theorem foldl_step_failed (l : List (String × TestResult)) (acc : Summary) :
    (l.foldl step acc).failed
      = acc.failed + l.countP (fun p => p.2.status = some "failed") := by
  induction l generalizing acc with
  | nil => simp
  | cons p ps ih =>
    simp only [List.foldl_cons, ih, step, procResult_failed, List.countP_cons]
    split <;> simp_all <;> omega

theorem foldl_step_skipped (l : List (String × TestResult)) (acc : Summary) :
    (l.foldl step acc).skipped
      = acc.skipped + l.countP (fun p =>
          match p.2.status with
          | some s => isSkipLike s
          | none => false) := by
  induction l generalizing acc with
  | nil => simp
  | cons p ps ih =>
    simp only [List.foldl_cons, ih, step, procResult_skipped, List.countP_cons]
    cases hm : (match p.2.status with
                | some s => isSkipLike s
                | none => false) <;> simp [hm] <;> omega

theorem foldl_step_specs (l : List (String × TestResult)) (acc : Summary) :
    (l.foldl step acc).specs
      = acc.specs ++ l.map (fun p =>
          ⟨p.1, p.2.duration, statusField p.2.status⟩) := by
  induction l generalizing acc with
  | nil => simp
  | cons p ps ih =>
    simp only [List.foldl_cons, ih, step, procResult_specs, List.map_cons,
      List.append_assoc, List.singleton_append]

theorem foldl_step_failures (l : List (String × TestResult)) (acc : Summary) :
    (l.foldl step acc).failures
      = acc.failures ++
        (l.filter (fun p => p.2.status = some "failed")).map (fun p =>
          ⟨p.1, p.2.duration, findErr p.2.attachments⟩) := by
  induction l generalizing acc with
  | nil => simp
  | cons p ps ih =>
    simp only [List.foldl_cons, ih, step, procResult_failures, List.filter_cons]
    by_cases h : p.2.status = some "failed" <;> simp [h, List.append_assoc]

theorem foldl_step_buckets (l : List (String × TestResult)) (acc : Summary) :
    (l.foldl step acc).passed + (l.foldl step acc).failed
        + (l.foldl step acc).skipped
      = acc.passed + acc.failed + acc.skipped
        + l.countP (fun p => statusKnown p.2.status) := by
  induction l generalizing acc with
  | nil => simp
  | cons p ps ih =>
    simp only [List.foldl_cons, List.countP_cons]
    rw [ih]
    simp only [step, procResult_passed, procResult_failed, procResult_skipped]
    rcases hs : p.2.status with _ | s
    · simp [statusKnown]
    · by_cases h1 : s = "passed"
      · subst h1; simp [statusKnown, isSkipLike]; omega
      · by_cases h2 : s = "failed"
        · subst h2; simp [statusKnown, isSkipLike]; omega
        · cases h3 : isSkipLike s <;>
            simp [statusKnown, h1, h2, h3] <;> omega

theorem statusKnown_iff (st : Option String) :
    statusKnown st = true ↔ ∃ s, st = some s ∧
      s ∈ ["passed", "failed", "skipped", "timedOut", "interrupted"] := by
  cases st <;> simp [statusKnown, isSkipLike] <;> tauto

/-- C1: for every well-formed result tree, the summary produced by
summarize_playwright_json has total equal to the number of Result nodes
in the tree, however deeply Suite nodes are nested. -/
theorem summarize_total_eq_countResults (root : List Suite) :
    (summarize root).total = countResults root := by
  rw [summarize, walkSuites_eq_foldl, foldl_step_total,
    countResults_eq_length]
  simp [emptySummary]

/-- C2: for every well-formed result tree, passed + failed + skipped is
at most total, with equality exactly when every result node's status is
one of passed, failed, skipped, timedOut, interrupted. -/
theorem summarize_bucket_sum_le_iff (root : List Suite) :
    (summarize root).passed + (summarize root).failed
        + (summarize root).skipped ≤ (summarize root).total ∧
    ((summarize root).passed + (summarize root).failed
        + (summarize root).skipped = (summarize root).total ↔
      ∀ p ∈ allResults root, ∃ s, p.2.status = some s ∧
        s ∈ ["passed", "failed", "skipped", "timedOut", "interrupted"]) := by
  rw [summarize, walkSuites_eq_foldl, foldl_step_buckets, foldl_step_total]
  simp only [emptySummary, Nat.zero_add, Nat.add_zero]
  constructor
  · exact List.countP_le_length _
  · rw [List.countP_eq_length]
    constructor
    · intro h p hp
      exact (statusKnown_iff p.2.status).mp (h p hp)
    · intro h p hp
      exact (statusKnown_iff p.2.status).mpr (h p hp)

/-- C10: for every well-formed result tree, the summary has exactly one
specs record per Result node (len specs = total) and exactly one
failures record per failed Result node (len failures = failed). -/
theorem summarize_specs_failures_length (root : List Suite) :
    (summarize root).specs.length = (summarize root).total ∧
    (summarize root).failures.length = (summarize root).failed := by
  rw [summarize, walkSuites_eq_foldl]
  constructor
  · rw [foldl_step_specs, foldl_step_total]
    simp [emptySummary]
  · rw [foldl_step_failures, foldl_step_failed]
    simp [emptySummary, List.countP_eq_length_filter]

/-- A one-suite tree whose single result carries the unrecognized
non-empty status "flaky". -/
def flakyTree : List Suite :=
  [.mk [⟨some "Spec F", none, [⟨[⟨some "flaky", 5, []⟩]⟩]⟩] []]

/-- C3 counterexample: a result whose status is the unrecognized value
"flaky" is counted in total only, but its specs record carries the
verbatim status "flaky", not the string "unknown". -/
theorem summarize_unknown_status_cex :
    (summarize flakyTree).total = 1 ∧
    (summarize flakyTree).passed = 0 ∧
    (summarize flakyTree).failed = 0 ∧
    (summarize flakyTree).skipped = 0 ∧
    (summarize flakyTree).specs.map SpecRec.status = ["flaky"] ∧
    ¬ (summarize flakyTree).specs.map SpecRec.status = ["unknown"] := by
  simp only [flakyTree, summarize, walkSuites]
  decide

theorem statusField_eq (st : Option String) :
    statusField st = if st.getD "" = "" then "unknown" else st.getD "" := by
  cases st <;> simp [statusField]

/-- C3 (amended): a result whose status is absent or outside
{passed, failed, skipped, timedOut, interrupted} increments total only —
no pass/fail/skip bucket, no failures record — and appends one specs
record whose status field is "unknown" when the raw status is absent or
empty, and the verbatim raw status otherwise. -/
theorem procResult_unknown_status (t : String) (acc : Summary)
    (r : TestResult) (h : statusKnown r.status = false) :
    (procResult t acc r).total = acc.total + 1 ∧
    (procResult t acc r).passed = acc.passed ∧
    (procResult t acc r).failed = acc.failed ∧
    (procResult t acc r).skipped = acc.skipped ∧
    (procResult t acc r).failures = acc.failures ∧
    (procResult t acc r).specs = acc.specs ++
      [⟨t, r.duration,
        if r.status.getD "" = "" then "unknown" else r.status.getD ""⟩] := by
  have h1 : ¬ r.status = some "passed" := by
    intro e; rw [e] at h; simp [statusKnown] at h
  have h2 : ¬ r.status = some "failed" := by
    intro e; rw [e] at h; simp [statusKnown] at h
  have h3 : (match r.status with
             | some s => isSkipLike s
             | none => false) = false := by
    cases hs : r.status with
    | none => rfl
    | some s =>
      rw [hs] at h
      by_contra hc
      simp only [Bool.not_eq_false] at hc
      simp [statusKnown, hc] at h
  refine ⟨procResult_total t acc r, ?_, ?_, ?_, ?_, ?_⟩
  · rw [procResult_passed, if_neg h1]; simp
  · rw [procResult_failed, if_neg h2]; simp
  · rw [procResult_skipped, h3]; simp
  · rw [procResult_failures, if_neg h2]; simp
  · rw [procResult_specs, statusField_eq]

/-- Witness for the amended C3 at a concrete unrecognized status. -/
theorem procResult_unknown_status_witness :
    (procResult "t" emptySummary ⟨some "flaky", 5, []⟩).total
        = emptySummary.total + 1 ∧
    (procResult "t" emptySummary ⟨some "flaky", 5, []⟩).passed
        = emptySummary.passed ∧
    (procResult "t" emptySummary ⟨some "flaky", 5, []⟩).failed
        = emptySummary.failed ∧
    (procResult "t" emptySummary ⟨some "flaky", 5, []⟩).skipped
        = emptySummary.skipped ∧
    (procResult "t" emptySummary ⟨some "flaky", 5, []⟩).failures
        = emptySummary.failures ∧
    (procResult "t" emptySummary ⟨some "flaky", 5, []⟩).specs
        = emptySummary.specs ++
          [⟨"t", (5 : Nat),
            if (some "flaky").getD "" = "" then "unknown"
            else (some "flaky").getD ""⟩] :=
  procResult_unknown_status "t" emptySummary ⟨some "flaky", 5, []⟩ (by decide)

theorem findErr_eq_find (l : List Attachment) :
    findErr l
      = (l.find? (fun a => a.name = some "error" && truthy a.body)).bind
          Attachment.body := by
  induction l with
  | nil => rfl
  | cons a rest ih =>
    cases hc : ((a.name = some "error" : Bool) && truthy a.body) with
    | true =>
      rw [Bool.and_eq_true] at hc
      have h1 : a.name = some "error" := by simpa using hc.1
      rw [findErr, if_pos ⟨h1, hc.2⟩,
        List.find?_cons_of_pos _ (by simp [h1, hc.2])]
      simp
    | false =>
      have hnot : ¬ (a.name = some "error" ∧ truthy a.body = true) := by
        rintro ⟨x, y⟩
        simp [x, y] at hc
      rw [findErr, if_neg hnot,
        List.find?_cons_of_neg _ (by simp [hc]), ih]

/-- C4: a result with status "failed" appends one failure record whose
error text is the body of the first attachment named "error" with a
non-empty body, and is absent when no such attachment exists. -/
theorem procResult_failed_record (t : String) (acc : Summary)
    (r : TestResult) (h : r.status = some "failed") :
    (procResult t acc r).failed = acc.failed + 1 ∧
    (procResult t acc r).failures = acc.failures ++
      [⟨t, r.duration,
        (r.attachments.find? (fun a =>
          a.name = some "error" && truthy a.body)).bind Attachment.body⟩] := by
  constructor
  · rw [procResult_failed, if_pos h]
  · rw [procResult_failures, if_pos h, findErr_eq_find]

/-- Witness for C4 at a concrete failed result with an error attachment. -/
theorem procResult_failed_record_witness :
    (procResult "T" emptySummary
        ⟨some "failed", 500, [⟨some "error", some "boom"⟩]⟩).failed
      = emptySummary.failed + 1 ∧
    (procResult "T" emptySummary
        ⟨some "failed", 500, [⟨some "error", some "boom"⟩]⟩).failures
      = emptySummary.failures ++
        [⟨"T", (500 : Nat),
          (([⟨some "error", some "boom"⟩] : List Attachment).find? (fun a =>
            a.name = some "error" && truthy a.body)).bind Attachment.body⟩] :=
  procResult_failed_record "T" emptySummary
    ⟨some "failed", 500, [⟨some "error", some "boom"⟩]⟩ (by rfl)

/-- The title resolution rule in the words of the spec: the display
title is the space-joined path segments if a title path is present, else
the raw title whitespace-split and space-rejoined; it falls back to the
raw title when these are absent or yield an empty string. -/
def specSideDisplayTitle (sp : Spec) : String :=
  match sp.titlePath with
  | some p => if joinSp p = "" then rawTitle sp else joinSp p
  | none =>
    if joinSp (splitWs (rawTitle sp)) = "" then rawTitle sp
    else joinSp (splitWs (rawTitle sp))

/-- C5: the title recorded by the summarizer for every spec agrees with
the spec's title-resolution rule, including the fallback to the raw
title when the joined path or normalized title is empty. -/
theorem recordTitle_eq_specSide (sp : Spec) :
    recordTitle sp = specSideDisplayTitle sp := by
  rw [recordTitle, specTitleJoined, specSideDisplayTitle]
  cases h : sp.titlePath <;> simp [h]

/-! ### The JUnit-XML renderer (write_junit_xml)

The XML document structure is modelled as the list of testcase children;
each child carries its name and time attributes and at most one nested
element (failure with a message, or an empty skipped element). The
testsuite attributes are verbatim copies of the summary counters plus a
wall-clock timestamp and are not modelled here. Durations are integer
milliseconds, so the Python float format f-string with .3f renders
duration/1000 exactly: integer part, a dot, and three fractional
digits. -/

/-- The nested element of a testcase child, if any. -/
inductive ChildTag where
  | failTag (msg : String)
  | skipTag
  | noTag
deriving Repr, DecidableEq

/-- Python: opt or dflt, for a string-or-absent value (None and "" are
falsy). -/
def pyOrStr (opt : Option String) (dflt : String) : String :=
  match opt with
  | some s => if s = "" then dflt else s
  | none => dflt

/-- The message loop of write_junit_xml: msg starts as "Test failed";
the first failures entry with a matching title sets msg to its error (or
keeps the default when the error is falsy) and breaks. -/
def failMsgLoop (title : String) : List FailRec → String
  | [] => "Test failed"
  | f :: fs =>
    if f.title = title then pyOrStr f.error "Test failed"
    else failMsgLoop title fs

/-- Three fractional digits of a millisecond remainder, zero-padded. -/
def pad3 (n : Nat) : String :=
  if n < 10 then "00" ++ Nat.repr n
  else if n < 100 then "0" ++ Nat.repr n
  else Nat.repr n

/-- The time attribute: duration_ms/1000 rendered with three decimal
places, exact for integer milliseconds. -/
def fmtTime3 (ms : Nat) : String :=
  Nat.repr (ms / 1000) ++ "." ++ pad3 (ms % 1000)

/-- One testcase child of the emitted document. -/
structure JUnitCase where
  name : String
  time : String
  tag : ChildTag
deriving Repr, DecidableEq

/-- The child emitted for one specs record. -/
def renderCase (failures : List FailRec) (sp : SpecRec) : JUnitCase :=
  { name := sp.title
    time := fmtTime3 sp.duration_ms
    tag :=
      if sp.status = "failed" then .failTag (failMsgLoop sp.title failures)
      else if sp.status = "skipped" then .skipTag
      else .noTag }

/-- write_junit_xml emits one child per specs entry, in order. -/
def junitCases (s : Summary) : List JUnitCase :=
  s.specs.map (renderCase s.failures)

/-- The numeric value of a digit string (most significant first). -/
def digitsVal (cs : List Char) : Nat :=
  cs.foldl (fun n c => n * 10 + (c.toNat - '0'.toNat)) 0

set_option maxRecDepth 40000 in
theorem pad3_spec : ∀ n, n < 1000 →
    (pad3 n).length = 3 ∧ (pad3 n).data.all Char.isDigit = true ∧
      digitsVal (pad3 n).data = n := by decide

theorem findErr_ne_some_empty (l : List Attachment) :
    findErr l ≠ some "" := by
  induction l with
  | nil => simp [findErr]
  | cons a rest ih =>
    rw [findErr]
    by_cases h : a.name = some "error" ∧ truthy a.body = true
    · rw [if_pos h]
      cases hb : a.body with
      | none => rw [hb] at h; simp [truthy] at h
      | some s =>
        rw [hb] at h
        have : s ≠ "" := by simpa [truthy] using h.2
        simpa using this
    · rw [if_neg h]; exact ih

/-- Every error captured in a failures record of a summary produced by
summarize_playwright_json is either absent or a non-empty string. -/
theorem summarize_failures_error_ne (root : List Suite) :
    ∀ f ∈ (summarize root).failures, f.error ≠ some "" := by
  intro f hf
  rw [summarize, walkSuites_eq_foldl, foldl_step_failures] at hf
  simp only [emptySummary, List.nil_append, List.mem_map,
    List.mem_filter] at hf
  obtain ⟨p, _, rfl⟩ := hf
  exact findErr_ne_some_empty p.2.attachments

theorem failMsgLoop_eq_find (title : String) (fl : List FailRec)
    (hne : ∀ f ∈ fl, f.error ≠ some "") :
    failMsgLoop title fl
      = match fl.find? (fun f => f.title = title) with
        | some f => f.error.getD "Test failed"
        | none => "Test failed" := by
  induction fl with
  | nil => rfl
  | cons f fs ih =>
    by_cases h : f.title = title
    · rw [failMsgLoop, if_pos h,
        List.find?_cons_of_pos _ (by simp [h])]
      cases he : f.error with
      | none => simp [pyOrStr, he]
      | some e =>
        have hne2 : e ≠ "" := by
          intro he2
          exact hne f (List.mem_cons_self f fs) (by rw [he, he2])
        simp [pyOrStr, he, hne2]
    · rw [failMsgLoop, if_neg h,
        List.find?_cons_of_neg _ (by simp [h]),
        ih (fun g hg => hne g (List.mem_cons_of_mem f hg))]

/-- C6: in the JUnit renderer applied to a summary produced by
summarize_playwright_json, every specs entry with status "failed" yields
a child carrying a failure element whose message is the error text of
the first failures entry with an equal title — defaulting to
"Test failed" when no entry matches or no error text was captured — and
the child's time attribute is duration_ms/1000 with exactly three
fractional digits. -/
theorem junit_failed_case (root : List Suite) (sp : SpecRec)
    (hmem : sp ∈ (summarize root).specs) (hst : sp.status = "failed") :
    (renderCase (summarize root).failures sp).tag
        = ChildTag.failTag
          (match (summarize root).failures.find?
              (fun f => f.title = sp.title) with
           | some f => f.error.getD "Test failed"
           | none => "Test failed") ∧
    ∃ frac,
      (renderCase (summarize root).failures sp).time
          = Nat.repr (sp.duration_ms / 1000) ++ "." ++ frac ∧
      frac.length = 3 ∧ frac.data.all Char.isDigit = true ∧
      digitsVal frac.data = sp.duration_ms % 1000 := by
  constructor
  · rw [renderCase]
    simp only [hst, if_pos rfl]
    rw [failMsgLoop_eq_find sp.title (summarize root).failures
      (summarize_failures_error_ne root)]
    simp
  · refine ⟨pad3 (sp.duration_ms % 1000), rfl, ?_⟩
    exact (pad3_spec (sp.duration_ms % 1000)
      (Nat.mod_lt _ (by omega))).imp id id

/-- A one-suite, one-failure tree for the C6 witness. -/
def failTree : List Suite :=
  [.mk [⟨some "Spec B", some ["e2e", "Spec B"],
        [⟨[⟨some "failed", 1234,
            [⟨some "error", some "boom"⟩]⟩]⟩]⟩] []]

/-- Witness for C6 at a concrete failing result. -/
theorem junit_failed_case_witness :
    (renderCase (summarize failTree).failures
        ⟨"e2e Spec B", 1234, "failed"⟩).tag
        = ChildTag.failTag
          (match (summarize failTree).failures.find?
              (fun f => f.title = "e2e Spec B") with
           | some f => f.error.getD "Test failed"
           | none => "Test failed") ∧
    ∃ frac,
      (renderCase (summarize failTree).failures
          ⟨"e2e Spec B", 1234, "failed"⟩).time
          = Nat.repr (1234 / 1000) ++ "." ++ frac ∧
      frac.length = 3 ∧ frac.data.all Char.isDigit = true ∧
      digitsVal frac.data = 1234 % 1000 :=
  junit_failed_case failTree ⟨"e2e Spec B", 1234, "failed"⟩
    (by simp only [failTree, summarize, walkSuites]; decide) (by rfl)

end Report

/-! The RLS smoke check (src/scripts/rls_smoke.py).

The two REST reads are modelled by their outcomes: either a decoded JSON
payload or a raised exception. urllib raises HTTPError for an HTTP error
status and other exceptions (URLError, socket timeout) for network
failures; try_fetch catches HTTPError only. The JSON payload is modelled
as deeply as the script inspects it: a list of items (each a dict of
string keys to values, or a non-dict) or a non-list value.
-/

namespace Rls

/-- A JSON field value, as far as the script compares it: a string or
anything else. -/
inductive JVal where
  | str (s : String)
  | otherVal
deriving Repr, DecidableEq

/-- One element of the decoded result list. -/
inductive Item where
  | dict (fields : List (String × JVal))
  | nondict
deriving Repr, DecidableEq

/-- The decoded JSON payload of a successful request. -/
inductive JData where
  | arr (items : List Item)
  | nonarr
deriving Repr, DecidableEq

/-- An exception raised by fetch: an HTTP error response with its status
code, or any other network failure (URLError, timeout). -/
inductive Exc where
  | httpError (code : Nat)
  | netError
deriving Repr, DecidableEq

/-- The outcome of one call to fetch. -/
inductive FetchOutcome where
  | ok (d : JData)
  | exn (e : Exc)
deriving Repr, DecidableEq

/-- An abnormal termination of main: an exception that try_fetch did not
catch, or an AttributeError from calling .get on a non-dict row. -/
inductive RunError where
  | uncaught (e : Exc)
  | attrError
deriving Repr, DecidableEq

/-- try_fetch: (data, None) on success, (None, e) when fetch raises
HTTPError; every other exception propagates to the caller. -/
def tryFetch : FetchOutcome → Except Exc (Option JData × Option Nat)
  | .ok d => .ok (some d, none)
  | .exn (.httpError c) => .ok (none, some c)
  | .exn .netError => .error .netError

/-- len(data) if isinstance(data, list) else 0. -/
def countRows : Option JData → Nat
  | some (.arr items) => items.length
  | _ => 0

/-- r.get("privacy_level") for a dict row. -/
def rowPrivacy (fs : List (String × JVal)) : Option JVal :=
  (fs.find? (fun p => p.1 = "privacy_level")).map Prod.snd

/-- isinstance(data[0], dict) and "privacy_level" in data[0]. -/
def headHasPrivacyKey : List Item → Bool
  | .dict fs :: _ => (rowPrivacy fs).isSome
  | _ => false

/-- len([r for r in items if r.get("privacy_level") == "private"]):
raises AttributeError when the list holds a non-dict element. -/
def privatesCount : List Item → Except RunError Nat
  | [] => .ok 0
  | .dict fs :: rest => do
    let n ← privatesCount rest
    return (if rowPrivacy fs = some (.str "private") then 1 else 0) + n
  | .nondict :: _ => .error .attrError

/-- The body of main() after the required-environment guard, as a
function of the two request outcomes (anon first, then service_role, in
program order). The returned value is the exit code; a RunError is an
unhandled exception. -/
def mainBody (anonB srB : FetchOutcome) : Except RunError Nat := do
  let anonPair ← (tryFetch anonB).mapError RunError.uncaught
  let srPair ← (tryFetch srB).mapError RunError.uncaught
  let (anonData, anonErr) := anonPair
  let (srData, srErr) := srPair
  if srErr.isSome then return 1
  else
    match anonErr with
    | some c => if c = 401 ∨ c = 403 then return 0 else return 0
    | none =>
      let anonCount := countRows anonData
      let srCount := countRows srData
      if srCount < anonCount then return 1
      else
        match anonData with
        | some (.arr items) =>
          if anonCount ≠ 0 ∧ headHasPrivacyKey items = true then do
            let nPriv ← privatesCount items
            if nPriv ≠ 0 then return 1 else return 0
          else return 0
        | _ => return 0

/-- C7: classification of the smoke check. Both requests complete with a
payload or an HTTP error response. An elevated (service_role) HTTP error
exits 1; when the elevated request succeeds, a restricted (anon) HTTP
401/403 exits 0, and any other restricted HTTP error also exits 0 (a
warning only). -/
theorem mainBody_classification (anonB srB : FetchOutcome)
    (ha : anonB ≠ FetchOutcome.exn Exc.netError) :
    (∀ c, srB = .exn (.httpError c) → mainBody anonB srB = .ok 1) ∧
    (∀ d c, srB = .ok d → anonB = .exn (.httpError c) →
      ((c = 401 ∨ c = 403) → mainBody anonB srB = .ok 0) ∧
      (¬ (c = 401 ∨ c = 403) → mainBody anonB srB = .ok 0)) := by
  refine ⟨?_, ?_⟩
  · rintro c rfl
    match anonB, ha with
    | .ok d, _ => rfl
    | .exn (.httpError c2), _ => rfl
  · rintro d c rfl rfl
    have e : mainBody (.exn (.httpError c)) (.ok d)
        = if c = 401 ∨ c = 403 then Except.ok 0 else Except.ok 0 := rfl
    exact ⟨fun _ => by rw [e, ite_self], fun _ => by rw [e, ite_self]⟩

/-- Witness for C7: a service_role HTTP 500 exits 1; with service_role
returning an empty list, anon HTTP 401 exits 0 and anon HTTP 500 exits
0. -/
theorem mainBody_classification_witness :
    mainBody (.ok (.arr [])) (.exn (.httpError 500)) = .ok 1 ∧
    mainBody (.exn (.httpError 401)) (.ok (.arr [])) = .ok 0 ∧
    mainBody (.exn (.httpError 500)) (.ok (.arr [])) = .ok 0 :=
  ⟨(mainBody_classification (.ok (.arr [])) (.exn (.httpError 500))
      (by simp)).1 500 rfl,
   ((mainBody_classification (.exn (.httpError 401)) (.ok (.arr []))
      (by simp)).2 (.arr []) 401 rfl rfl).1 (Or.inl rfl),
   ((mainBody_classification (.exn (.httpError 500)) (.ok (.arr []))
      (by simp)).2 (.arr []) 500 rfl rfl).2 (by simp)⟩

theorem privatesCount_eq (items : List Item)
    (hdict : ∀ i ∈ items, ∃ fs, i = Item.dict fs) :
    privatesCount items = .ok (items.countP (fun i =>
      match i with
      | Item.dict fs => rowPrivacy fs = some (JVal.str "private")
      | Item.nondict => false)) := by
  induction items with
  | nil => rfl
  | cons i rest ih =>
    obtain ⟨fs, rfl⟩ := hdict i (List.mem_cons_self i rest)
    rw [privatesCount, ih (fun j hj => hdict j (List.mem_cons_of_mem _ hj))]
    by_cases hp : rowPrivacy fs = some (JVal.str "private") <;>
      simp [List.countP_cons, hp, Nat.add_comm]

/-- C8: when both requests succeed, every restricted-visible row is
object-shaped and carries a privacy_level field, and some
restricted-visible row is classified "private", the check exits 1. -/
theorem mainBody_private_row_fails (items : List Item) (d : JData)
    (hshape : ∀ i ∈ items, ∃ fs, i = Item.dict fs ∧
      (rowPrivacy fs).isSome = true)
    (hpriv : ∃ fs, Item.dict fs ∈ items ∧
      rowPrivacy fs = some (JVal.str "private")) :
    mainBody (.ok (.arr items)) (.ok d) = .ok 1 := by
  have e : mainBody (.ok (.arr items)) (.ok d)
      = if countRows (some d) < countRows (some (.arr items)) then
          Except.ok 1
        else if countRows (some (.arr items)) ≠ 0 ∧
            headHasPrivacyKey items = true then
          Except.bind (privatesCount items)
            (fun nPriv => if nPriv ≠ 0 then Except.ok 1 else Except.ok 0)
        else Except.ok 0 := rfl
  rw [e]
  by_cases hcnt : countRows (some d) < countRows (some (.arr items))
  · rw [if_pos hcnt]
  · rw [if_neg hcnt]
    obtain ⟨pfs, hmem, hp⟩ := hpriv
    have hne : countRows (some (JData.arr items)) ≠ 0 := by
      have hlen : 0 < items.length :=
        List.length_pos.mpr (List.ne_nil_of_mem hmem)
      simp only [countRows]
      omega
    have hhead : headHasPrivacyKey items = true := by
      cases hi : items with
      | nil => rw [hi] at hmem; cases hmem
      | cons i0 rest =>
        obtain ⟨fs, hfs, hkey⟩ :=
          hshape i0 (hi ▸ List.mem_cons_self i0 rest)
        rw [hfs, headHasPrivacyKey, hkey]
    rw [if_pos ⟨hne, hhead⟩,
      privatesCount_eq items (fun i hi => (hshape i hi).imp fun _ h => h.1)]
    have hC : items.countP (fun i =>
        match i with
        | Item.dict fs => rowPrivacy fs = some (JVal.str "private")
        | Item.nondict => false) ≠ 0 := by
      have : 0 < items.countP (fun i =>
          match i with
          | Item.dict fs => rowPrivacy fs = some (JVal.str "private")
          | Item.nondict => false) :=
        List.countP_pos_iff.mpr ⟨Item.dict pfs, hmem, by simpa using hp⟩
      omega
    simp only [Except.bind]
    rw [if_pos hC]

/-- A single restricted-visible row classified "private". -/
def privItems : List Item :=
  [.dict [("id", .otherVal), ("privacy_level", .str "private")]]

/-- Witness for C8: both tiers see the same single private row; the
check exits 1. -/
theorem mainBody_private_row_fails_witness :
    mainBody (.ok (.arr privItems)) (.ok (.arr privItems)) = .ok 1 :=
  mainBody_private_row_fails privItems (.arr privItems)
    (by
      intro i hi
      simp only [privItems, List.mem_singleton] at hi
      subst hi
      exact ⟨[("id", .otherVal), ("privacy_level", .str "private")],
        rfl, by decide⟩)
    ⟨[("id", .otherVal), ("privacy_level", .str "private")],
      by decide, by decide⟩

/-- C9 counterexample: with the elevated request succeeding, a
restricted-tier timeout/network error does not exit 0 as claimed — it
propagates as an unhandled exception (try_fetch catches HTTPError
only). -/
theorem mainBody_timeout_cex :
    mainBody (.exn .netError) (.ok (.arr []))
        = .error (.uncaught .netError) ∧
    mainBody (.exn .netError) (.ok (.arr [])) ≠ .ok 0 :=
  ⟨rfl, fun h => Except.noConfusion h⟩

/-- C9 (amended): an HTTP error response of either credential tier is
caught and classified, but a timeout or non-HTTP network error in
either request is not caught by try_fetch and propagates as an
unhandled exception. -/
theorem mainBody_netError_propagates (anonB srB : FetchOutcome)
    (h : anonB = .exn .netError ∨ srB = .exn .netError) :
    mainBody anonB srB = .error (.uncaught .netError) := by
  rcases h with rfl | rfl
  · rfl
  · match anonB with
    | .ok d => rfl
    | .exn (.httpError c) => rfl
    | .exn .netError => rfl

/-- Witness for the amended C9: an elevated-tier network error crashes
even though the restricted request succeeded. -/
theorem mainBody_netError_propagates_witness :
    mainBody (.ok (.arr [])) (.exn .netError)
        = .error (.uncaught .netError) :=
  mainBody_netError_propagates (.ok (.arr [])) (.exn .netError) (Or.inr rfl)

end Rls
